import Mathlib

/-!
# SafeConfig core pipeline, shallowly embedded

This file embeds the core of the SafeConfig repository in Lean 4:

* the IR data model (`src/compiler/ir.ts`),
* the invariant engine (`src/backend/src/compiler/invariants.ts`),
* the drift differencer (`src/compiler/diff.ts`),
* the parser/validator (`src/backend/src/compiler/parser.ts`), with the
  external deserializer (js-yaml / JSON.parse) abstracted as a generic
  tree value, the zod schema validation implemented over that tree, and
  the Node `crypto` SHA-256 digest implemented bit-faithfully over the
  UTF-8 bytes of the raw text.

Theorems about the embedded definitions settle the specification claims.
-/

set_option autoImplicit false
set_option maxRecDepth 100000

namespace SafeConfig

/-! ## IR model (src/compiler/ir.ts) -/

/-- `ServiceType = 'api' | 'db' | 'queue' | 'cache'`. -/
inductive ServiceType where
  | api | db | queue | cache
  deriving DecidableEq, Repr

/-- `Protocol = 'http' | 'https' | 'tcp'`. -/
inductive Protocol where
  | http | https | tcp
  deriving DecidableEq, Repr

/-- `NetworkBinding { host, port, protocol }`; `port` is a nonnegative
integer after schema validation, hence `Nat`. -/
structure NetworkBinding where
  host : String
  port : Nat
  protocol : Protocol
  deriving DecidableEq, Repr

/-- `ResourceLimits { cpu?, memoryMb? }`. The fields are JS numbers; no
rule or claim ever computes with their values (rules only test
definedness), so they are carried as rationals. -/
structure ResourceLimits where
  cpu : Option Rat
  memoryMb : Option Rat
  deriving DecidableEq, Repr

/-- `Service` from `ir.ts`. `public` is not a Lean keyword and keeps its
source name. -/
structure Service where
  name : String
  type : ServiceType
  public : Bool
  handlesPII : Bool
  network : List NetworkBinding
  dependsOn : List String
  resourceLimits : Option ResourceLimits
  deriving DecidableEq, Repr

/-- `'yaml' | 'json'` source format tag. -/
inductive Format where
  | yaml | json
  deriving DecidableEq, Repr

/-- `ConfigIR.metadata`. -/
structure Metadata where
  sourceFormat : Format
  rawHash : Option String
  deriving DecidableEq, Repr

/-- `ConfigIR { services, metadata? }`. -/
structure ConfigIR where
  services : List Service
  metadata : Option Metadata
  deriving DecidableEq, Repr

/-! ## Invariant engine (src/backend/src/compiler/invariants.ts) -/

/-- `Severity = 'low' | 'medium' | 'high'`. -/
inductive Severity where
  | low | medium | high
  deriving DecidableEq, Repr

/-- The string a severity renders as (used in diff messages). -/
def severityText : Severity → String
  | Severity.low => "low"
  | Severity.medium => "medium"
  | Severity.high => "high"

/-- `InvariantViolation` record. -/
structure InvariantViolation where
  id : String
  description : String
  serviceName : String
  severity : Severity
  deriving DecidableEq, Repr

/-- R1: `ruleNoPublicDatabases`. NOTE: as in the source, the
`service.public` test sits INSIDE the `network.some(...)` callback, so
it is never consulted when `network` is empty. -/
def ruleNoPublicDatabases (service : Service) : Option InvariantViolation :=
  if service.type ≠ ServiceType.db then none else
  let hasPublicBinding :=
    service.network.any (fun n => n.host == "0.0.0.0" || service.public)
  if hasPublicBinding = false then none else
  some { id := "R1_NO_PUBLIC_DB"
         description := "Database service is exposed publicly (host=0.0.0.0 or marked public). Databases should not be directly reachable from the internet."
         serviceName := service.name
         severity := Severity.high }

/-- R2: `rulePublicServicesRequireTLS`. -/
def rulePublicServicesRequireTLS (service : Service) : Option InvariantViolation :=
  if service.public = false then none else
  let hasHttps := service.network.any (fun n => n.protocol == Protocol.https)
  if hasHttps = true then none else
  let hasHttp := service.network.any (fun n => n.protocol == Protocol.http)
  if hasHttp = false then none else
  some { id := "R2_PUBLIC_REQUIRES_TLS"
         description := "Publicly exposed service listens on HTTP without any HTTPS endpoint. Public services must have TLS enabled."
         serviceName := service.name
         severity := Severity.high }

/-- R3: `ruleNoPIIPublicExposure`. -/
def ruleNoPIIPublicExposure (service : Service) : Option InvariantViolation :=
  if service.handlesPII = false then none else
  if service.public = false then none else
  some { id := "R3_NO_PII_PUBLIC"
         description := "Service that handles PII is marked as public. PII-handling services should not be directly exposed to the internet."
         serviceName := service.name
         severity := Severity.high }

/-- R4: `ruleResourceLimitsDefined`. -/
def ruleResourceLimitsDefined (service : Service) : Option InvariantViolation :=
  match service.resourceLimits with
  | some limits =>
    if limits.cpu ≠ none ∧ limits.memoryMb ≠ none then none else
    some { id := "R4_RESOURCE_LIMITS"
           description := "Service is missing CPU or memory limits. Resource limits are required for predictable capacity and to prevent noisy-neighbour issues."
           serviceName := service.name
           severity := Severity.medium }
  | none =>
    some { id := "R4_RESOURCE_LIMITS"
           description := "Service is missing CPU or memory limits. Resource limits are required for predictable capacity and to prevent noisy-neighbour issues."
           serviceName := service.name
           severity := Severity.medium }

/-- The fixed `RULES` array, in source order. -/
def RULES : List (Service → Option InvariantViolation) :=
  [ruleNoPublicDatabases, rulePublicServicesRequireTLS,
   ruleNoPIIPublicExposure, ruleResourceLimitsDefined]

/-- `checkInvariants`, translated from the nested `for` loops that push
each non-null rule result onto the accumulating array. -/
def checkInvariants (ir : ConfigIR) : List InvariantViolation :=
  ir.services.foldl
    (fun acc svc =>
      RULES.foldl
        (fun acc2 rule =>
          match rule svc with
          | some v => acc2 ++ [v]
          | none => acc2)
        acc)
    []

/-- The per-service violations, in rule order. -/
def serviceViolations (svc : Service) : List InvariantViolation :=
  RULES.filterMap (fun rule => rule svc)

/-! ## Drift differencer (src/compiler/diff.ts) -/

/-- `RiskImpact = 'risk_increase' | 'risk_decrease' | 'neutral'`. -/
inductive RiskImpact where
  | risk_increase | risk_decrease | neutral
  deriving DecidableEq, Repr

/-- `ServiceChange` record. -/
structure ServiceChange where
  serviceName : String
  messages : List String
  riskImpact : RiskImpact
  deriving DecidableEq, Repr

/-- `DiffSummary` record; the totals are counts, hence `Nat`. -/
structure DiffSummary where
  totalNewViolations : Nat
  totalResolvedViolations : Nat
  deriving DecidableEq, Repr

/-- `DiffResult` record. -/
structure DiffResult where
  summary : DiffSummary
  changes : List ServiceChange
  deriving DecidableEq, Repr

/-- One step of `indexByService`'s loop: append `v` to the bucket of its
`serviceName` (`map.get(...) ?? []` then `push` then `set`), modelled on
an insertion-ordered association list (the semantics of a JS `Map`). -/
def insertViolation (map : List (String × List InvariantViolation))
    (v : InvariantViolation) : List (String × List InvariantViolation) :=
  if map.any (fun p => p.1 == v.serviceName) then
    map.map (fun p => if p.1 = v.serviceName then (p.1, p.2 ++ [v]) else p)
  else
    map ++ [(v.serviceName, [v])]

/-- `indexByService`: group the violations by `serviceName`. -/
def indexByService (violations : List InvariantViolation) :
    List (String × List InvariantViolation) :=
  violations.foldl insertViolation []

/-- `index.get(name) ?? []` on the association-list model of the map. -/
def mapGetD (map : List (String × List InvariantViolation)) (name : String) :
    List InvariantViolation :=
  match map.find? (fun p => p.1 == name) with
  | some p => p.2
  | none => []

/-- `new Set([...old names, ...new names])` iterated in insertion order:
keep the first occurrence of each element. -/
def dedupNames (names : List String) : List String :=
  names.foldl (fun acc n => if n ∈ acc then acc else acc ++ [n]) []

/-- Rendering of one current violation inside a diff message:
`` `${v.id} (${v.severity})` ``. -/
def violationLabel (v : InvariantViolation) : String :=
  v.id ++ " (" ++ severityText v.severity ++ ")"

/-- The body of the `for (const name of allServiceNames)` loop in
`diffConfigs`, as a pure function of the two indexes and the name:
`none` when the iteration `continue`s (both counts zero), otherwise the
contribution to `totalNewViolations`, the contribution to
`totalResolvedViolations`, and the pushed `ServiceChange`.  (The loop
body reads the accumulators only to add these contributions.) -/
def nameEntry (oldIndex newIndex : List (String × List InvariantViolation))
    (name : String) : Option (Nat × Nat × ServiceChange) :=
  let oldVs := mapGetD oldIndex name
  let newVs := mapGetD newIndex name
  let oldCount := oldVs.length
  let newCount := newVs.length
  if oldCount = 0 ∧ newCount = 0 then none
  else
    let branch : Nat × Nat × String :=
      if oldCount = 0 ∧ 0 < newCount then
        (newCount, 0, toString newCount ++ " new violation(s) introduced.")
      else if 0 < oldCount ∧ newCount = 0 then
        (0, oldCount, toString oldCount ++ " violation(s) resolved.")
      else if newCount ≠ oldCount then
        if oldCount < newCount then
          (newCount - oldCount, 0,
            "Violations increased from " ++ toString oldCount ++ " to " ++
              toString newCount ++ ".")
        else
          (0, oldCount - newCount,
            "Violations decreased from " ++ toString oldCount ++ " to " ++
              toString newCount ++ ".")
      else
        (0, 0, "Violations count unchanged (" ++ toString newCount ++ ").")
    let messages := [branch.2.2]
    let messages :=
      if 0 < newVs.length then
        messages ++
          ["Current violations: " ++
            String.intercalate ", " (newVs.map violationLabel)]
      else messages
    let riskImpact :=
      if oldCount < newCount then RiskImpact.risk_increase
      else if newCount < oldCount then RiskImpact.risk_decrease
      else RiskImpact.neutral
    some (branch.1, branch.2.1,
      { serviceName := name, messages := messages, riskImpact := riskImpact })

/-- `diffConfigs`, translated from the source loop: fold the per-name
entries over the deduplicated union of service names, accumulating the
two totals and the pushed changes. -/
def diffConfigs (oldIR newIR : ConfigIR)
    (oldViolations newViolations : List InvariantViolation) : DiffResult :=
  let oldIndex := indexByService oldViolations
  let newIndex := indexByService newViolations
  let allServiceNames :=
    dedupNames (oldIR.services.map Service.name ++ newIR.services.map Service.name)
  let acc := allServiceNames.foldl
    (fun acc name =>
      match nameEntry oldIndex newIndex name with
      | none => acc
      | some e => (acc.1 + e.1, acc.2.1 + e.2.1, acc.2.2 ++ [e.2.2]))
    ((0, 0, []) : Nat × Nat × List ServiceChange)
  { summary := { totalNewViolations := acc.1, totalResolvedViolations := acc.2.1 },
    changes := acc.2.2 }

/-! ## SHA-256 (model of Node `crypto.createHash('sha256')`)

`parser.ts` fingerprints the raw text with
`crypto.createHash('sha256').update(rawConfig).digest('hex').slice(0, 12)`.
Node hashes the UTF-8 encoding of the string and renders the digest as
lowercase hex.  The implementation below is FIPS 180-4 SHA-256 over
byte lists, with 32-bit words as `Nat` reduced mod `2^32`. -/

/-- Truncate to a 32-bit word. -/
def w32 (n : Nat) : Nat := n % 4294967296

/-- Right-rotation of a 32-bit word. -/
def rotr32 (x n : Nat) : Nat := w32 ((x >>> n) ||| (x <<< (32 - n)))

def bigSigma0 (x : Nat) : Nat := rotr32 x 2 ^^^ rotr32 x 13 ^^^ rotr32 x 22

def bigSigma1 (x : Nat) : Nat := rotr32 x 6 ^^^ rotr32 x 11 ^^^ rotr32 x 25

def smallSigma0 (x : Nat) : Nat := rotr32 x 7 ^^^ rotr32 x 18 ^^^ (x >>> 3)

def smallSigma1 (x : Nat) : Nat := rotr32 x 17 ^^^ rotr32 x 19 ^^^ (x >>> 10)

def chFn (e f g : Nat) : Nat := (e &&& f) ^^^ ((e ^^^ 4294967295) &&& g)

def majFn (a b c : Nat) : Nat := (a &&& b) ^^^ (a &&& c) ^^^ (b &&& c)

/-- The 64 SHA-256 round constants (FIPS 180-4 §4.2.2, the fractional
parts of the cube roots of the first 64 primes), written in decimal. -/
def sha256K : List Nat :=
  [1116352408, 1899447441, 3049323471, 3921009573, 961987163,
   1508970993, 2453635748, 2870763221, 3624381080, 310598401,
   607225278, 1426881987, 1925078388, 2162078206, 2614888103,
   3248222580, 3835390401, 4022224774, 264347078, 604807628,
   770255983, 1249150122, 1555081692, 1996064986, 2554220882,
   2821834349, 2952996808, 3210313671, 3336571891, 3584528711,
   113926993, 338241895, 666307205, 773529912, 1294757372,
   1396182291, 1695183700, 1986661051, 2177026350, 2456956037,
   2730485921, 2820302411, 3259730800, 3345764771, 3516065817,
   3600352804, 4094571909, 275423344, 430227734, 506948616,
   659060556, 883997877, 958139571, 1322822218, 1537002063,
   1747873779, 1955562222, 2024104815, 2227730452, 2361852424,
   2428436474, 2756734187, 3204031479, 3329325298]

/-- The SHA-256 initial hash value (FIPS 180-4 §5.3.3), in decimal. -/
def sha256H0 : List Nat :=
  [1779033703, 3144134277, 1013904242,
   2773480762, 1359893119, 2600822924,
   528734635, 1541459225]

/-- Append the `0x80` marker, the zero padding, and the 64-bit big-endian
bit length, so the padded length is a multiple of 64 bytes. -/
def padMessage (msg : List Nat) : List Nat :=
  let len := msg.length
  let bitLen := len * 8
  let padZeros := (119 - len % 64) % 64
  msg ++ [0x80] ++ List.replicate padZeros 0 ++
    (List.range 8).map (fun i => (bitLen >>> ((7 - i) * 8)) &&& 255)

/-- Big-endian packing of bytes into 32-bit words. -/
def bytesToWords : List Nat → List Nat
  | b0 :: b1 :: b2 :: b3 :: rest =>
    ((b0 <<< 24) ||| (b1 <<< 16) ||| (b2 <<< 8) ||| b3) :: bytesToWords rest
  | _ => []

/-- Extend a 16-word block to the 64-word message schedule. -/
def sha256Schedule (block : List Nat) : Array Nat :=
  (List.range 48).foldl
    (fun w i =>
      let t := w32 (smallSigma1 (w.getD (i + 14) 0) + w.getD (i + 9) 0 +
        smallSigma0 (w.getD (i + 1) 0) + w.getD i 0)
      w.push t)
    block.toArray

/-- One SHA-256 compression step over a 16-word block. -/
def sha256Compress (H : List Nat) (block : List Nat) : List Nat :=
  let w := sha256Schedule block
  let s := (List.range 64).foldl
    (fun (s : Nat × Nat × Nat × Nat × Nat × Nat × Nat × Nat) i =>
      let t1 := w32 (s.2.2.2.2.2.2.2 + bigSigma1 s.2.2.2.2.1 +
        chFn s.2.2.2.2.1 s.2.2.2.2.2.1 s.2.2.2.2.2.2.1 +
        sha256K.getD i 0 + w.getD i 0)
      let t2 := w32 (bigSigma0 s.1 + majFn s.1 s.2.1 s.2.2.1)
      (w32 (t1 + t2), s.1, s.2.1, s.2.2.1, w32 (s.2.2.2.1 + t1),
        s.2.2.2.2.1, s.2.2.2.2.2.1, s.2.2.2.2.2.2.1))
    (H.getD 0 0, H.getD 1 0, H.getD 2 0, H.getD 3 0,
     H.getD 4 0, H.getD 5 0, H.getD 6 0, H.getD 7 0)
  [w32 (H.getD 0 0 + s.1), w32 (H.getD 1 0 + s.2.1),
   w32 (H.getD 2 0 + s.2.2.1), w32 (H.getD 3 0 + s.2.2.2.1),
   w32 (H.getD 4 0 + s.2.2.2.2.1), w32 (H.getD 5 0 + s.2.2.2.2.2.1),
   w32 (H.getD 6 0 + s.2.2.2.2.2.2.1), w32 (H.getD 7 0 + s.2.2.2.2.2.2.2)]

/-- Fold the compression over the given number of 16-word blocks. -/
def sha256Blocks (H : List Nat) (ws : List Nat) (nblocks : Nat) : List Nat :=
  match nblocks with
  | 0 => H
  | n + 1 => sha256Blocks (sha256Compress H (ws.take 16)) (ws.drop 16) n

/-- SHA-256 of a byte list, as eight 32-bit words. -/
def sha256Words (msg : List Nat) : List Nat :=
  let ws := bytesToWords (padMessage msg)
  sha256Blocks sha256H0 ws (ws.length / 16)

/-- Lowercase hex digit. -/
def hexDigit (n : Nat) : Char :=
  if n < 10 then Char.ofNat (48 + n) else Char.ofNat (87 + n)

/-- Lowercase 8-digit hex rendering of a 32-bit word. -/
def wordToHex (w : Nat) : String :=
  String.mk ((List.range 8).map (fun i => hexDigit ((w >>> ((7 - i) * 4)) &&& 15)))

/-- UTF-8 encoding of one character (what `Buffer.from(s, 'utf8')` does
per code point). -/
def utf8Bytes (c : Char) : List Nat :=
  let n := c.toNat
  if n < 0x80 then [n]
  else if n < 0x800 then
    [0xC0 ||| (n >>> 6), 0x80 ||| (n &&& 0x3F)]
  else if n < 0x10000 then
    [0xE0 ||| (n >>> 12), 0x80 ||| ((n >>> 6) &&& 0x3F), 0x80 ||| (n &&& 0x3F)]
  else
    [0xF0 ||| (n >>> 18), 0x80 ||| ((n >>> 12) &&& 0x3F),
     0x80 ||| ((n >>> 6) &&& 0x3F), 0x80 ||| (n &&& 0x3F)]

/-- UTF-8 bytes of a string. -/
def stringToBytes (s : String) : List Nat := s.data.flatMap utf8Bytes

/-- `crypto.createHash('sha256').update(s).digest('hex')`. -/
def sha256hexOfString (s : String) : String :=
  String.join ((sha256Words (stringToBytes s)).map wordToHex)

/-! ## Parser / validator (src/backend/src/compiler/parser.ts)

`parseConfigToIR(rawConfig, format)` first deserializes the text with the
external library (`YAML.load` or `JSON.parse`).  That library is outside
the repository, so the deserialized generic tree is taken as an input
(`JValue`) here; the schema validation (`configSchema.safeParse`) and the
IR construction are modelled from the source over that tree. -/

/-- The generic tree produced by `YAML.load` / `JSON.parse`: null,
booleans, numbers, strings, arrays and objects (insertion-ordered
key/value fields). -/
inductive JValue where
  | null
  | bool (b : Bool)
  | num (q : Rat)
  | str (s : String)
  | arr (items : List JValue)
  | obj (fields : List (String × JValue))

/-- One step of a zod issue path: an object key or an array index. -/
inductive PathSeg where
  | key (k : String)
  | idx (i : Nat)
  deriving DecidableEq, Repr

/-- A zod issue: the offending path and its message. -/
structure Issue where
  path : List PathSeg
  message : String
  deriving DecidableEq, Repr

/-- `e.path.join('.')`: stringify each segment and join with dots. -/
def pathSegText : PathSeg → String
  | PathSeg.key k => k
  | PathSeg.idx i => toString i

def renderPath (path : List PathSeg) : String :=
  String.intercalate "." (path.map pathSegText)

/-- zod's `getParsedType` name for a present value. -/
def jsTypeName : JValue → String
  | JValue.null => "null"
  | JValue.bool _ => "boolean"
  | JValue.num _ => "number"
  | JValue.str _ => "string"
  | JValue.arr _ => "array"
  | JValue.obj _ => "object"

/-- Property lookup on a deserialized object (`undefined` when the key is
absent, encoded as `none`). -/
def objGet (fields : List (String × JValue)) (k : String) : Option JValue :=
  (fields.find? (fun p => p.1 == k)).map (fun p => p.2)

/-- The issues of a failed result, `[]` on success. -/
def errsOf {α : Type} : Except (List Issue) α → List Issue
  | Except.error es => es
  | Except.ok _ => []

/-- `z.string()` on a possibly-absent value. -/
def validString (path : List PathSeg) : Option JValue → Except (List Issue) String
  | some (JValue.str s) => Except.ok s
  | some v => Except.error [⟨path, "Expected string, received " ++ jsTypeName v⟩]
  | none => Except.error [⟨path, "Required"⟩]

/-- `z.enum(['api','db','queue','cache'])`. -/
def validServiceType (path : List PathSeg) :
    Option JValue → Except (List Issue) ServiceType
  | some (JValue.str "api") => Except.ok ServiceType.api
  | some (JValue.str "db") => Except.ok ServiceType.db
  | some (JValue.str "queue") => Except.ok ServiceType.queue
  | some (JValue.str "cache") => Except.ok ServiceType.cache
  | some (JValue.str s) =>
    Except.error [⟨path,
      "Invalid enum value. Expected 'api' | 'db' | 'queue' | 'cache', received '"
        ++ s ++ "'"⟩]
  | some v =>
    Except.error [⟨path,
      "Expected 'api' | 'db' | 'queue' | 'cache', received " ++ jsTypeName v⟩]
  | none => Except.error [⟨path, "Required"⟩]

/-- `z.enum(['http','https','tcp'])`. -/
def validProtocol (path : List PathSeg) :
    Option JValue → Except (List Issue) Protocol
  | some (JValue.str "http") => Except.ok Protocol.http
  | some (JValue.str "https") => Except.ok Protocol.https
  | some (JValue.str "tcp") => Except.ok Protocol.tcp
  | some (JValue.str s) =>
    Except.error [⟨path,
      "Invalid enum value. Expected 'http' | 'https' | 'tcp', received '"
        ++ s ++ "'"⟩]
  | some v =>
    Except.error [⟨path,
      "Expected 'http' | 'https' | 'tcp', received " ++ jsTypeName v⟩]
  | none => Except.error [⟨path, "Required"⟩]

/-- `z.boolean().default(false)`: an absent value takes the default. -/
def validBoolDefault (path : List PathSeg) :
    Option JValue → Except (List Issue) Bool
  | some (JValue.bool b) => Except.ok b
  | some v =>
    Except.error [⟨path, "Expected boolean, received " ++ jsTypeName v⟩]
  | none => Except.ok false

/-- `z.number().int().nonnegative()` for `port`: both checks collect
issues when the value is a number of the wrong shape. -/
def validPort (path : List PathSeg) : Option JValue → Except (List Issue) Nat
  | some (JValue.num q) =>
    let issues :=
      (if q.den = 1 then [] else
        [(⟨path, "Expected integer, received float"⟩ : Issue)]) ++
      (if q < 0 then
        [(⟨path, "Number must be greater than or equal to 0"⟩ : Issue)]
       else [])
    if issues.isEmpty then Except.ok q.num.toNat else Except.error issues
  | some v => Except.error [⟨path, "Expected number, received " ++ jsTypeName v⟩]
  | none => Except.error [⟨path, "Required"⟩]

/-- `z.number().optional()` for a resource-limit field. -/
def validOptNumber (path : List PathSeg) :
    Option JValue → Except (List Issue) (Option Rat)
  | none => Except.ok none
  | some (JValue.num q) => Except.ok (some q)
  | some v => Except.error [⟨path, "Expected number, received " ++ jsTypeName v⟩]

/-- Validate every element of an array at `path`, collecting all issues
(zod validates every element; the element at index `i` is reported under
`path.i`). -/
def validElems {α : Type} (elemValid : List PathSeg → JValue → Except (List Issue) α)
    (path : List PathSeg) (items : List JValue) : Except (List Issue) (List α) :=
  let rs := items.enum.map (fun p => elemValid (path ++ [PathSeg.idx p.1]) p.2)
  let es := rs.flatMap errsOf
  if es.isEmpty then Except.ok (rs.filterMap Except.toOption) else Except.error es

/-- `networkBindingSchema`: object with `host`/`port`/`protocol`, issues
collected across the three keys in shape order. -/
def validBinding (path : List PathSeg) : JValue → Except (List Issue) NetworkBinding
  | JValue.obj fields =>
    let rhost := validString (path ++ [PathSeg.key "host"]) (objGet fields "host")
    let rport := validPort (path ++ [PathSeg.key "port"]) (objGet fields "port")
    let rproto :=
      validProtocol (path ++ [PathSeg.key "protocol"]) (objGet fields "protocol")
    match rhost, rport, rproto with
    | Except.ok h, Except.ok p, Except.ok pr =>
      Except.ok { host := h, port := p, protocol := pr }
    | _, _, _ => Except.error (errsOf rhost ++ errsOf rport ++ errsOf rproto)
  | v => Except.error [⟨path, "Expected object, received " ++ jsTypeName v⟩]

/-- `z.array(networkBindingSchema).default([])`. -/
def validNetwork (path : List PathSeg) :
    Option JValue → Except (List Issue) (List NetworkBinding)
  | none => Except.ok []
  | some (JValue.arr items) => validElems validBinding path items
  | some v => Except.error [⟨path, "Expected array, received " ++ jsTypeName v⟩]

/-- `z.array(z.string()).default([])` for `dependsOn`. -/
def validDeps (path : List PathSeg) :
    Option JValue → Except (List Issue) (List String)
  | none => Except.ok []
  | some (JValue.arr items) =>
    validElems (fun p v => validString p (some v)) path items
  | some v => Except.error [⟨path, "Expected array, received " ++ jsTypeName v⟩]

/-- `resourceLimitsSchema`: optional partial object of two optional
numbers. -/
def validResourceLimits (path : List PathSeg) :
    Option JValue → Except (List Issue) (Option ResourceLimits)
  | none => Except.ok none
  | some (JValue.obj fields) =>
    let rcpu := validOptNumber (path ++ [PathSeg.key "cpu"]) (objGet fields "cpu")
    let rmem :=
      validOptNumber (path ++ [PathSeg.key "memoryMb"]) (objGet fields "memoryMb")
    match rcpu, rmem with
    | Except.ok c, Except.ok m => Except.ok (some { cpu := c, memoryMb := m })
    | _, _ => Except.error (errsOf rcpu ++ errsOf rmem)
  | some v => Except.error [⟨path, "Expected object, received " ++ jsTypeName v⟩]

/-- `serviceSchema`: the seven keys in shape order, issues collected
across all of them. -/
def validService (path : List PathSeg) : JValue → Except (List Issue) Service
  | JValue.obj fields =>
    let rname := validString (path ++ [PathSeg.key "name"]) (objGet fields "name")
    let rtype :=
      validServiceType (path ++ [PathSeg.key "type"]) (objGet fields "type")
    let rpublic :=
      validBoolDefault (path ++ [PathSeg.key "public"]) (objGet fields "public")
    let rpii := validBoolDefault (path ++ [PathSeg.key "handlesPII"])
      (objGet fields "handlesPII")
    let rnetwork :=
      validNetwork (path ++ [PathSeg.key "network"]) (objGet fields "network")
    let rdeps :=
      validDeps (path ++ [PathSeg.key "dependsOn"]) (objGet fields "dependsOn")
    let rlimits := validResourceLimits (path ++ [PathSeg.key "resourceLimits"])
      (objGet fields "resourceLimits")
    match rname, rtype, rpublic, rpii, rnetwork, rdeps, rlimits with
    | Except.ok n, Except.ok t, Except.ok pb, Except.ok pi, Except.ok nw,
      Except.ok dp, Except.ok rl =>
      Except.ok { name := n, type := t, public := pb, handlesPII := pi,
                  network := nw, dependsOn := dp, resourceLimits := rl }
    | _, _, _, _, _, _, _ =>
      Except.error (errsOf rname ++ errsOf rtype ++ errsOf rpublic ++
        errsOf rpii ++ errsOf rnetwork ++ errsOf rdeps ++ errsOf rlimits)
  | v => Except.error [⟨path, "Expected object, received " ++ jsTypeName v⟩]

/-- `configSchema.safeParse`: a top-level object with a required
`services` array. -/
def validateConfig : JValue → Except (List Issue) (List Service)
  | JValue.obj fields =>
    (match objGet fields "services" with
     | none => Except.error [⟨[PathSeg.key "services"], "Required"⟩]
     | some (JValue.arr items) =>
       validElems validService [PathSeg.key "services"] items
     | some v =>
       Except.error [⟨[PathSeg.key "services"],
         "Expected array, received " ++ jsTypeName v⟩])
  | v => Except.error [⟨[], "Expected object, received " ++ jsTypeName v⟩]

/-- `ParseResult { ir?, errors }`. -/
structure ParseResult where
  ir : Option ConfigIR
  errors : List String
  deriving Repr

/-- The body of `parseConfigToIR` after deserialization succeeded:
schema-validate the tree; on failure return the single aggregated error
string; on success build the IR, fingerprinting the ORIGINAL raw text
(the validated `data.services` already carry their defaults, so the
source's identity-reshaping `map` is the validated list itself). -/
def parseTreeToIR (parsed : JValue) (rawConfig : String) (format : Format) :
    ParseResult :=
  match validateConfig parsed with
  | Except.error issues =>
    { ir := none,
      errors := ["Schema validation failed: " ++
        String.intercalate "; "
          (issues.map (fun e => renderPath e.path ++ ": " ++ e.message))] }
  | Except.ok services =>
    { ir := some
        { services := services,
          metadata := some
            { sourceFormat := format,
              rawHash := some ((sha256hexOfString rawConfig).take 12) } },
      errors := [] }

/-! ## Concrete configurations from the spec's scenarios -/

/-- Scenario 1: `{name:"user-db", type:"db", public:true, network:[],
dependsOn:[], resourceLimits:{cpu:1,memoryMb:512}}`. -/
def scenario1Service : Service :=
  { name := "user-db", type := ServiceType.db, public := true,
    handlesPII := false, network := [], dependsOn := [],
    resourceLimits := some { cpu := some 1, memoryMb := some 512 } }

def scenario1IR : ConfigIR := { services := [scenario1Service], metadata := none }

/-- Scenario 2: `{name:"api-gw", type:"api", public:true,
network:[{host:"0.0.0.0",port:80,protocol:"http"}], handlesPII:false}`
with no `resourceLimits`. -/
def scenario2Service : Service :=
  { name := "api-gw", type := ServiceType.api, public := true,
    handlesPII := false,
    network := [{ host := "0.0.0.0", port := 80, protocol := Protocol.http }],
    dependsOn := [], resourceLimits := none }

def scenario2IR : ConfigIR := { services := [scenario2Service], metadata := none }

/-- Scenario 3's service: "cache1", shaped so that rule evaluation yields
exactly two violations (R3 and R4). -/
def cache1Service : Service :=
  { name := "cache1", type := ServiceType.cache, public := true,
    handlesPII := true, network := [], dependsOn := [],
    resourceLimits := none }

def cache1IR : ConfigIR := { services := [cache1Service], metadata := none }

/-- Scenario 5's deserialized tree: one service missing the required
`type` field. -/
def missingTypeTree : JValue :=
  JValue.obj [("services", JValue.arr [JValue.obj [("name", JValue.str "x")]])]

/-- A deserialized tree with an empty service list. -/
def emptyServicesTree : JValue := JValue.obj [("services", JValue.arr [])]

/-- Two distinct service entries sharing one name (for the duplicate-name
behavior of the differencer). -/
def dupIR : ConfigIR :=
  { services :=
      [{ name := "dup", type := ServiceType.api, public := true,
         handlesPII := false, network := [], dependsOn := [],
         resourceLimits := none },
       { name := "dup", type := ServiceType.cache, public := false,
         handlesPII := false, network := [], dependsOn := [],
         resourceLimits := none }],
    metadata := none }

/-- Two violations both attributed to "dup". -/
def dupViolations : List InvariantViolation :=
  [{ id := "R3_NO_PII_PUBLIC", description := "d1", serviceName := "dup",
     severity := Severity.high },
   { id := "R4_RESOURCE_LIMITS", description := "d2", serviceName := "dup",
     severity := Severity.medium }]

/-! ## Theorems -/

theorem foldl_rules_eq (svc : Service) (acc : List InvariantViolation)
    (rules : List (Service → Option InvariantViolation)) :
    rules.foldl
      (fun acc2 rule =>
        match rule svc with
        | some v => acc2 ++ [v]
        | none => acc2)
      acc = acc ++ rules.filterMap (fun rule => rule svc) := by
  induction rules generalizing acc with
  | nil => simp
  | cons r rs ih =>
    simp only [List.foldl_cons, List.filterMap_cons]
    cases h : r svc with
    | none => simp [ih]
    | some v => simp [ih]

theorem checkInvariants_eq_bind_aux (svcs : List Service)
    (acc : List InvariantViolation) :
    svcs.foldl
      (fun acc svc =>
        RULES.foldl
          (fun acc2 rule =>
            match rule svc with
            | some v => acc2 ++ [v]
            | none => acc2)
          acc)
      acc = acc ++ svcs.flatMap serviceViolations := by
  induction svcs generalizing acc with
  | nil => simp
  | cons s ss ih =>
    simp only [List.foldl_cons, List.flatMap_cons]
    rw [foldl_rules_eq, ih, List.append_assoc]
    rfl

/-- The imperative accumulation in `checkInvariants` is the concatenation,
over services in IR order, of the four rules applied in rule order. -/
theorem checkInvariants_eq_bind (ir : ConfigIR) :
    checkInvariants ir = ir.services.flatMap serviceViolations := by
  unfold checkInvariants
  rw [checkInvariants_eq_bind_aux]
  rfl

/-! ### Structural lemmas about the diff embedding -/

theorem mapGetD_insertViolation
    (map : List (String × List InvariantViolation)) (v : InvariantViolation)
    (name : String) :
    mapGetD (insertViolation map v) name =
      mapGetD map name ++ (if v.serviceName = name then [v] else []) := by
  by_cases hp : map.any (fun p => p.1 == v.serviceName) = true
  · unfold insertViolation mapGetD
    rw [if_pos hp]
    have hcomp : ((fun (p : String × List InvariantViolation) => p.1 == name) ∘
        (fun p => if p.1 = v.serviceName then (p.1, p.2 ++ [v]) else p))
        = (fun (p : String × List InvariantViolation) => p.1 == name) := by
      funext p
      by_cases h : p.1 = v.serviceName <;> simp [h]
    rw [List.find?_map, hcomp]
    cases hf : map.find? (fun p => p.1 == name) with
    | none =>
      by_cases h : v.serviceName = name
      · exfalso
        rw [List.find?_eq_none] at hf
        rw [List.any_eq_true] at hp
        obtain ⟨p, hmem, hbeq⟩ := hp
        rw [h] at hbeq
        exact hf p hmem hbeq
      · simp [h]
    | some p0 =>
      have hq : p0.1 = name := by
        have := List.find?_some hf
        simpa using this
      by_cases h : v.serviceName = name
      · have h1 : p0.1 = v.serviceName := hq.trans h.symm
        simp [h, h1]
      · have h1 : ¬ p0.1 = v.serviceName := fun hc => h (hc.symm.trans hq)
        simp [h, h1]
  · unfold insertViolation mapGetD
    rw [if_neg hp, List.find?_append]
    by_cases h : v.serviceName = name
    · have hnone : map.find? (fun p => p.1 == name) = none := by
        rw [List.find?_eq_none]
        intro x hx hc
        apply hp
        rw [List.any_eq_true]
        refine ⟨x, hx, ?_⟩
        rw [h]
        exact hc
      rw [hnone]
      simp [h]
    · have hsingle :
          List.find? (fun p => p.1 == name)
            [((v.serviceName, [v]) : String × List InvariantViolation)] = none := by
        simp [h]
      rw [hsingle, Option.or_none, if_neg h]
      simp

theorem mapGetD_foldl_insertViolation (vs : List InvariantViolation)
    (map : List (String × List InvariantViolation)) (name : String) :
    mapGetD (vs.foldl insertViolation map) name =
      mapGetD map name ++ vs.filter (fun v => v.serviceName == name) := by
  induction vs generalizing map with
  | nil => simp
  | cons v vs ih =>
    simp only [List.foldl_cons, List.filter_cons]
    rw [ih, mapGetD_insertViolation]
    by_cases h : v.serviceName = name
    · simp [h]
    · simp [h]

/-- The `Map` built by `indexByService`, read back through
`get(name) ?? []`, yields exactly the violations attributed to `name`,
in input order. -/
theorem mapGetD_indexByService (vs : List InvariantViolation) (name : String) :
    mapGetD (indexByService vs) name =
      vs.filter (fun v => v.serviceName == name) := by
  unfold indexByService
  rw [mapGetD_foldl_insertViolation]
  simp [mapGetD]

theorem mem_dedupNames_foldl (l : List String) (acc : List String) (a : String) :
    a ∈ l.foldl (fun acc n => if n ∈ acc then acc else acc ++ [n]) acc ↔
      a ∈ acc ∨ a ∈ l := by
  induction l generalizing acc with
  | nil => simp
  | cons x xs ih =>
    simp only [List.foldl_cons]
    by_cases hx : x ∈ acc
    · rw [if_pos hx, ih]
      simp only [List.mem_cons]
      constructor
      · rintro (h | h)
        · exact Or.inl h
        · exact Or.inr (Or.inr h)
      · rintro (h | h | h)
        · exact Or.inl h
        · exact Or.inl (h ▸ hx)
        · exact Or.inr h
    · rw [if_neg hx, ih]
      simp only [List.mem_append, List.mem_singleton, List.mem_cons]
      tauto

theorem mem_dedupNames (l : List String) (a : String) :
    a ∈ dedupNames l ↔ a ∈ l := by
  unfold dedupNames
  rw [mem_dedupNames_foldl]
  simp

theorem dedupNames_nodup_foldl (l : List String) (acc : List String)
    (h : acc.Nodup) :
    (l.foldl (fun acc n => if n ∈ acc then acc else acc ++ [n]) acc).Nodup := by
  induction l generalizing acc with
  | nil => exact h
  | cons x xs ih =>
    simp only [List.foldl_cons]
    by_cases hx : x ∈ acc
    · rw [if_pos hx]
      exact ih acc h
    · rw [if_neg hx]
      apply ih
      rw [List.nodup_append]
      refine ⟨h, List.nodup_singleton x, ?_⟩
      intro a ha hax
      rw [List.mem_singleton] at hax
      exact hx (hax ▸ ha)

theorem dedupNames_nodup (l : List String) : (dedupNames l).Nodup :=
  dedupNames_nodup_foldl l [] List.nodup_nil

theorem diff_foldl_eq (oldIndex newIndex : List (String × List InvariantViolation))
    (names : List String) (a b : Nat) (cs : List ServiceChange) :
    names.foldl
      (fun acc name =>
        match nameEntry oldIndex newIndex name with
        | none => acc
        | some e => (acc.1 + e.1, acc.2.1 + e.2.1, acc.2.2 ++ [e.2.2]))
      (a, b, cs) =
      (a + ((names.filterMap (nameEntry oldIndex newIndex)).map (fun e => e.1)).sum,
       b + ((names.filterMap (nameEntry oldIndex newIndex)).map (fun e => e.2.1)).sum,
       cs ++ (names.filterMap (nameEntry oldIndex newIndex)).map (fun e => e.2.2)) := by
  induction names generalizing a b cs with
  | nil => simp
  | cons n ns ih =>
    simp only [List.foldl_cons, List.filterMap_cons]
    cases h : nameEntry oldIndex newIndex n with
    | none =>
      simp only [h]
      rw [ih]
    | some e =>
      simp only [h]
      rw [ih]
      simp [Nat.add_assoc, List.append_assoc]

/-- Closed form of `diffConfigs`: the totals are the sums of the per-name
contributions and the changes are the per-name changes, over the
deduplicated union of service names. -/
theorem diffConfigs_eq (oldIR newIR : ConfigIR)
    (oldV newV : List InvariantViolation) :
    diffConfigs oldIR newIR oldV newV =
      { summary :=
          { totalNewViolations :=
              (((dedupNames (oldIR.services.map Service.name ++
                  newIR.services.map Service.name)).filterMap
                (nameEntry (indexByService oldV) (indexByService newV))).map
                  (fun e => e.1)).sum,
            totalResolvedViolations :=
              (((dedupNames (oldIR.services.map Service.name ++
                  newIR.services.map Service.name)).filterMap
                (nameEntry (indexByService oldV) (indexByService newV))).map
                  (fun e => e.2.1)).sum },
        changes :=
          ((dedupNames (oldIR.services.map Service.name ++
              newIR.services.map Service.name)).filterMap
            (nameEntry (indexByService oldV) (indexByService newV))).map
              (fun e => e.2.2) } := by
  simp only [diffConfigs]
  rw [diff_foldl_eq]
  simp

/-- The loop body `continue`s exactly when both violation counts are zero. -/
theorem nameEntry_eq_none_iff (oi ni : List (String × List InvariantViolation))
    (name : String) :
    nameEntry oi ni name = none ↔
      (mapGetD oi name).length = 0 ∧ (mapGetD ni name).length = 0 := by
  simp only [nameEntry]
  split_ifs with h
  · simp [h]
  · exact iff_of_false (by simp) h

theorem nameEntry_isSome_iff (oi ni : List (String × List InvariantViolation))
    (name : String) :
    (nameEntry oi ni name).isSome = true ↔
      ¬((mapGetD oi name).length = 0 ∧ (mapGetD ni name).length = 0) := by
  rw [Option.isSome_iff_ne_none, ne_eq, nameEntry_eq_none_iff]

/-- An emitted entry's change is attributed to the name it was computed for. -/
theorem nameEntry_serviceName (oi ni : List (String × List InvariantViolation))
    (name : String) (e : Nat × Nat × ServiceChange)
    (h : nameEntry oi ni name = some e) : e.2.2.serviceName = name := by
  simp only [nameEntry] at h
  split_ifs at h
  all_goals cases Option.some.inj h
  all_goals rfl

/-- Diffing a configuration against itself: every per-name entry either
skips or contributes `(0, 0)` with a `neutral` change. -/
theorem nameEntry_self (m : List (String × List InvariantViolation))
    (name : String) :
    nameEntry m m name = none ∨
      ∃ c : ServiceChange, nameEntry m m name = some (0, 0, c) ∧
        c.riskImpact = RiskImpact.neutral := by
  by_cases hk : (mapGetD m name).length = 0
  · left
    simp only [nameEntry]
    simp [hk]
  · right
    have hpos : 0 < (mapGetD m name).length := Nat.pos_of_ne_zero hk
    refine ⟨{ serviceName := name,
              messages := ["Violations count unchanged (" ++
                  toString (mapGetD m name).length ++ ").",
                "Current violations: " ++
                  String.intercalate ", " ((mapGetD m name).map violationLabel)],
              riskImpact := RiskImpact.neutral }, ?_, rfl⟩
    simp only [nameEntry]
    simp [hk, hpos, Nat.lt_irrefl]

/-- The `old > 0, new = 0` branch of the loop: message
`"N violation(s) resolved."`, contribution `N` to the resolved total,
impact `risk_decrease`, and no second message. -/
theorem nameEntry_resolved (oi ni : List (String × List InvariantViolation))
    (name : String) (h0 : 0 < (mapGetD oi name).length)
    (h1 : (mapGetD ni name).length = 0) :
    nameEntry oi ni name = some (0, (mapGetD oi name).length,
      { serviceName := name,
        messages := [toString (mapGetD oi name).length ++
          " violation(s) resolved."],
        riskImpact := RiskImpact.risk_decrease }) := by
  simp only [nameEntry]
  have hne : (mapGetD oi name).length ≠ 0 := Nat.pos_iff_ne_zero.mp h0
  simp [h1, hne, h0]

theorem filterMap_nameEntry_names (oi ni : List (String × List InvariantViolation))
    (names : List String) :
    (names.filterMap (nameEntry oi ni)).map (fun e => e.2.2.serviceName) =
      names.filter (fun n => (nameEntry oi ni n).isSome) := by
  induction names with
  | nil => rfl
  | cons n ns ih =>
    simp only [List.filterMap_cons, List.filter_cons]
    cases h : nameEntry oi ni n with
    | none => simpa [h] using ih
    | some e =>
      have hn := nameEntry_serviceName oi ni n e h
      simp [h, hn, ih]

/-! ### Per-rule attribution lemmas -/

theorem ruleNoPublicDatabases_name (svc : Service) (v : InvariantViolation)
    (h : ruleNoPublicDatabases svc = some v) : v.serviceName = svc.name := by
  simp only [ruleNoPublicDatabases] at h
  split_ifs at h
  all_goals cases Option.some.inj h
  all_goals rfl

theorem rulePublicServicesRequireTLS_name (svc : Service) (v : InvariantViolation)
    (h : rulePublicServicesRequireTLS svc = some v) : v.serviceName = svc.name := by
  simp only [rulePublicServicesRequireTLS] at h
  split_ifs at h
  all_goals cases Option.some.inj h
  all_goals rfl

theorem ruleNoPIIPublicExposure_name (svc : Service) (v : InvariantViolation)
    (h : ruleNoPIIPublicExposure svc = some v) : v.serviceName = svc.name := by
  simp only [ruleNoPIIPublicExposure] at h
  split_ifs at h
  all_goals cases Option.some.inj h
  all_goals rfl

theorem ruleResourceLimitsDefined_name (svc : Service) (v : InvariantViolation)
    (h : ruleResourceLimitsDefined svc = some v) : v.serviceName = svc.name := by
  cases hrl : svc.resourceLimits with
  | none =>
    simp only [ruleResourceLimitsDefined, hrl] at h
    cases Option.some.inj h
    rfl
  | some limits =>
    simp only [ruleResourceLimitsDefined, hrl] at h
    split_ifs at h
    all_goals cases Option.some.inj h
    all_goals rfl

theorem serviceViolations_name (svc : Service) (v : InvariantViolation)
    (h : v ∈ serviceViolations svc) : v.serviceName = svc.name := by
  rw [serviceViolations, List.mem_filterMap] at h
  obtain ⟨rule, hrule, hv⟩ := h
  simp only [RULES, List.mem_cons, List.not_mem_nil, or_false] at hrule
  rcases hrule with rfl | rfl | rfl | rfl
  · exact ruleNoPublicDatabases_name svc v hv
  · exact rulePublicServicesRequireTLS_name svc v hv
  · exact ruleNoPIIPublicExposure_name svc v hv
  · exact ruleResourceLimitsDefined_name svc v hv

/-! ### Claim theorems -/

/-- C1 (code bug evidence): evaluated on Scenario 1's configuration — a
`db` service with `public := true` and an empty network list — the code
produces NO violations at all: the `service.public` test sits inside the
`network.some(...)` callback, so an empty binding list short-circuits it.
The claim (and the spec's R1 row and Scenario 1) requires exactly one
`R1_NO_PUBLIC_DB` violation of severity high here, which also matches the
rule's own description string ("host=0.0.0.0 or marked public"); the code
diverges from both. -/
theorem c1_scenario1_code_behavior :
    scenario1Service.type = ServiceType.db ∧
    scenario1Service.public = true ∧
    scenario1Service.network = [] ∧
    ruleNoPublicDatabases scenario1Service = none ∧
    checkInvariants scenario1IR = [] := by
  refine ⟨rfl, rfl, rfl, ?_, ?_⟩ <;> decide

/-- C2: `rulePublicServicesRequireTLS` fires — producing the
`R2_PUBLIC_REQUIRES_TLS` high-severity violation attributed to the
service — exactly when the service is public, has at least one `http`
binding, and has no `https` binding; in every other case (including a
public service whose bindings are all `tcp`, or an empty binding list) it
returns nothing. -/
theorem c2_r2_fires_iff (s : Service) :
    rulePublicServicesRequireTLS s =
      (if s.public = true ∧ (∃ n ∈ s.network, n.protocol = Protocol.http) ∧
          ¬(∃ n ∈ s.network, n.protocol = Protocol.https) then
        some { id := "R2_PUBLIC_REQUIRES_TLS",
               description := "Publicly exposed service listens on HTTP without any HTTPS endpoint. Public services must have TLS enabled.",
               serviceName := s.name, severity := Severity.high }
      else none) := by
  simp only [rulePublicServicesRequireTLS]
  by_cases hp : s.public = false
  · have hp' : ¬s.public = true := by simp [hp]
    simp [hp, hp']
  · have hp' : s.public = true := by
      cases hb : s.public
      · exact absurd hb hp
      · rfl
    by_cases hh : s.network.any (fun n => n.protocol == Protocol.https) = true
    · have hex : ∃ n ∈ s.network, n.protocol = Protocol.https := by
        rw [List.any_eq_true] at hh
        simpa using hh
      simp [hp', hh, hex]
    · have hh' : s.network.any (fun n => n.protocol == Protocol.https) = false := by
        cases hb : s.network.any (fun n => n.protocol == Protocol.https)
        · rfl
        · exact absurd hb hh
      have hnex : ¬∃ n ∈ s.network, n.protocol = Protocol.https := by
        rw [List.any_eq_false] at hh'
        intro ⟨n, hn, he⟩
        exact hh' n hn (by simp [he])
      by_cases ht : s.network.any (fun n => n.protocol == Protocol.http) = true
      · have hext : ∃ n ∈ s.network, n.protocol = Protocol.http := by
          rw [List.any_eq_true] at ht
          simpa using ht
        simp [hp', hh', ht, hext, hnex]
      · have ht' : s.network.any (fun n => n.protocol == Protocol.http) = false := by
          cases hb : s.network.any (fun n => n.protocol == Protocol.http)
          · rfl
          · exact absurd hb ht
        have hnext : ¬∃ n ∈ s.network, n.protocol = Protocol.http := by
          rw [List.any_eq_false] at ht'
          intro ⟨n, hn, he⟩
          exact ht' n hn (by simp [he])
        simp [hp', hh', ht', hnext]

/-- C3: `checkInvariants` applies the four rules to every service of the
IR, in service order, concatenating the produced violations; and on
Scenario 2's config (public api with one http binding, no resource
limits) the result contains both `R2_PUBLIC_REQUIRES_TLS` and
`R4_RESOURCE_LIMITS`. -/
theorem c3_all_rules_every_service :
    (∀ ir : ConfigIR, checkInvariants ir = ir.services.flatMap serviceViolations) ∧
    "R2_PUBLIC_REQUIRES_TLS" ∈ (checkInvariants scenario2IR).map InvariantViolation.id ∧
    "R4_RESOURCE_LIMITS" ∈ (checkInvariants scenario2IR).map InvariantViolation.id :=
  ⟨checkInvariants_eq_bind, by decide, by decide⟩

/-- C9: every violation returned by `checkInvariants` is attributed to
the name of some service present in the IR. -/
theorem c9_violation_names_in_ir (ir : ConfigIR) :
    ∀ v ∈ checkInvariants ir, ∃ s ∈ ir.services, v.serviceName = s.name := by
  intro v hv
  rw [checkInvariants_eq_bind, List.mem_flatMap] at hv
  obtain ⟨svc, hsvc, hvs⟩ := hv
  exact ⟨svc, hsvc, serviceViolations_name svc v hvs⟩

/-- C9 witness: the R2 violation computed on Scenario 2's IR is
attributed to a service of that IR. -/
theorem c9_witness :
    ∃ s ∈ scenario2IR.services,
      ({ id := "R2_PUBLIC_REQUIRES_TLS",
         description := "Publicly exposed service listens on HTTP without any HTTPS endpoint. Public services must have TLS enabled.",
         serviceName := "api-gw", severity := Severity.high } :
        InvariantViolation).serviceName = s.name :=
  c9_violation_names_in_ir scenario2IR _ (by decide)

/-- Shared helper: metadata of a successfully built IR. -/
theorem parseTreeToIR_ok_metadata (parsed : JValue) (raw : String)
    (fmt : Format) (ir : ConfigIR)
    (h : (parseTreeToIR parsed raw fmt).ir = some ir) :
    ir.metadata = some
      { sourceFormat := fmt,
        rawHash := some ((sha256hexOfString raw).take 12) } := by
  unfold parseTreeToIR at h
  cases hv : validateConfig parsed with
  | error issues =>
    rw [hv] at h
    exact absurd h (by simp)
  | ok services =>
    rw [hv] at h
    cases Option.some.inj h
    rfl

/-- C4: whenever the deserialized tree fails schema validation, the
parser returns no IR and exactly one error string, aggregating every
offending field path and message, joined by `"; "`. -/
theorem c4_schema_failure_single_error (parsed : JValue) (raw : String)
    (fmt : Format) (issues : List Issue)
    (h : validateConfig parsed = Except.error issues) :
    (parseTreeToIR parsed raw fmt).ir = none ∧
    (parseTreeToIR parsed raw fmt).errors =
      ["Schema validation failed: " ++
        String.intercalate "; "
          (issues.map (fun e => renderPath e.path ++ ": " ++ e.message))] := by
  unfold parseTreeToIR
  rw [h]
  exact ⟨rfl, rfl⟩

/-- C4 witness (Scenario 5): a service missing the required `type` field
yields no IR and the single-element error list naming the path
`services.0.type`. -/
theorem c4_witness :
    (parseTreeToIR missingTypeTree "услуги" Format.yaml).ir = none ∧
    (parseTreeToIR missingTypeTree "услуги" Format.yaml).errors =
      ["Schema validation failed: services.0.type: Required"] := by
  have h := c4_schema_failure_single_error missingTypeTree "услуги" Format.yaml
    [⟨[PathSeg.key "services", PathSeg.idx 0, PathSeg.key "type"], "Required"⟩]
    (by rfl)
  exact ⟨h.1, h.2.trans (by rfl)⟩

/-- C5: on every successful parse, the IR's metadata records the given
format and a `rawHash` equal to the first 12 hex characters of the
SHA-256 digest of the ORIGINAL raw text; consequently two successful
parses of the same raw text with the same format yield the same
metadata (hence identical `rawHash`). -/
theorem c5_rawHash_of_raw_text (parsed : JValue) (raw : String)
    (fmt : Format) (ir : ConfigIR)
    (h : (parseTreeToIR parsed raw fmt).ir = some ir) :
    ir.metadata = some
      { sourceFormat := fmt,
        rawHash := some ((sha256hexOfString raw).take 12) } ∧
    (∀ parsed2 ir2, (parseTreeToIR parsed2 raw fmt).ir = some ir2 →
      ir2.metadata = ir.metadata) :=
  ⟨parseTreeToIR_ok_metadata parsed raw fmt ir h,
   fun parsed2 ir2 h2 =>
     (parseTreeToIR_ok_metadata parsed2 raw fmt ir2 h2).trans
       (parseTreeToIR_ok_metadata parsed raw fmt ir h).symm⟩

/-- C5 witness: parsing the raw text `"abc"` (with an empty-services
tree) produces `rawHash = "ba7816bf8f01"`, the first 12 hex characters of
the well-known SHA-256 digest of `"abc"`. -/
theorem c5_witness :
    ({ services := [],
       metadata := some { sourceFormat := Format.json,
                          rawHash := some "ba7816bf8f01" } } : ConfigIR).metadata =
      some { sourceFormat := Format.json,
             rawHash := some ((sha256hexOfString "abc").take 12) } ∧
    (∀ parsed2 ir2, (parseTreeToIR parsed2 "abc" Format.json).ir = some ir2 →
      ir2.metadata =
        ({ services := [],
           metadata := some { sourceFormat := Format.json,
                              rawHash := some "ba7816bf8f01" } } : ConfigIR).metadata) :=
  c5_rawHash_of_raw_text emptyServicesTree "abc" Format.json
    { services := [],
      metadata := some { sourceFormat := Format.json,
                         rawHash := some "ba7816bf8f01" } }
    (by rfl)

/-- C6: diffing a configuration against itself with identical violation
lists yields zero new violations, zero resolved violations, and only
`neutral` changes. -/
theorem c6_diff_self_neutral (A : ConfigIR) (V : List InvariantViolation) :
    (diffConfigs A A V V).summary.totalNewViolations = 0 ∧
    (diffConfigs A A V V).summary.totalResolvedViolations = 0 ∧
    ∀ c ∈ (diffConfigs A A V V).changes, c.riskImpact = RiskImpact.neutral := by
  have hkey : ∀ e ∈ (dedupNames (A.services.map Service.name ++
      A.services.map Service.name)).filterMap
      (nameEntry (indexByService V) (indexByService V)),
      e.1 = 0 ∧ e.2.1 = 0 ∧ e.2.2.riskImpact = RiskImpact.neutral := by
    intro e he
    rw [List.mem_filterMap] at he
    obtain ⟨name, hname, hsome⟩ := he
    rcases nameEntry_self (indexByService V) name with hnone | ⟨c, hc, hneutral⟩
    · rw [hnone] at hsome
      exact absurd hsome (by simp)
    · rw [hc] at hsome
      cases Option.some.inj hsome
      exact ⟨rfl, rfl, hneutral⟩
  rw [diffConfigs_eq]
  dsimp only
  refine ⟨?_, ?_, ?_⟩
  · apply List.sum_eq_zero
    intro x hx
    rw [List.mem_map] at hx
    obtain ⟨e, he, rfl⟩ := hx
    exact (hkey e he).1
  · apply List.sum_eq_zero
    intro x hx
    rw [List.mem_map] at hx
    obtain ⟨e, he, rfl⟩ := hx
    exact (hkey e he).2.1
  · intro c hc
    rw [List.mem_map] at hc
    obtain ⟨e, he, rfl⟩ := hc
    exact (hkey e he).2.2

/-- C6 witness: the self-diff of Scenario 3's old side. -/
theorem c6_witness :
    (diffConfigs cache1IR cache1IR (checkInvariants cache1IR)
      (checkInvariants cache1IR)).summary.totalNewViolations = 0 ∧
    (diffConfigs cache1IR cache1IR (checkInvariants cache1IR)
      (checkInvariants cache1IR)).summary.totalResolvedViolations = 0 ∧
    ∀ c ∈ (diffConfigs cache1IR cache1IR (checkInvariants cache1IR)
      (checkInvariants cache1IR)).changes,
      c.riskImpact = RiskImpact.neutral :=
  c6_diff_self_neutral cache1IR (checkInvariants cache1IR)

/-- C7: the diff emits a change for a name exactly when the name appears
among the services of either input IR and its attributed violation count
(the number of violations carrying that `serviceName`) is nonzero on at
least one side. -/
theorem c7_change_emitted_iff (oldIR newIR : ConfigIR)
    (oldV newV : List InvariantViolation) (name : String) :
    (∃ c ∈ (diffConfigs oldIR newIR oldV newV).changes, c.serviceName = name) ↔
      ((name ∈ oldIR.services.map Service.name ∨
        name ∈ newIR.services.map Service.name) ∧
       ((oldV.filter (fun v => v.serviceName == name)).length ≠ 0 ∨
        (newV.filter (fun v => v.serviceName == name)).length ≠ 0)) := by
  rw [diffConfigs_eq]
  dsimp only
  constructor
  · rintro ⟨c, hc, hname⟩
    rw [List.mem_map] at hc
    obtain ⟨e, he, rfl⟩ := hc
    rw [List.mem_filterMap] at he
    obtain ⟨n, hn, hsome⟩ := he
    have hn' : n = name := by
      rw [← hname]
      exact (nameEntry_serviceName _ _ n e hsome).symm
    subst hn'
    constructor
    · have hmem := (mem_dedupNames _ n).mp hn
      rw [List.mem_append] at hmem
      exact hmem
    · have hne : nameEntry (indexByService oldV) (indexByService newV) n ≠ none := by
        rw [hsome]
        simp
      rw [ne_eq, nameEntry_eq_none_iff, mapGetD_indexByService,
        mapGetD_indexByService] at hne
      tauto
  · rintro ⟨hmem, hcount⟩
    have hn : name ∈ dedupNames (oldIR.services.map Service.name ++
        newIR.services.map Service.name) :=
      (mem_dedupNames _ name).mpr (List.mem_append.mpr hmem)
    have hsome : (nameEntry (indexByService oldV) (indexByService newV)
        name).isSome = true := by
      rw [nameEntry_isSome_iff, mapGetD_indexByService, mapGetD_indexByService]
      tauto
    obtain ⟨e, he⟩ := Option.isSome_iff_exists.mp hsome
    refine ⟨e.2.2, ?_, nameEntry_serviceName _ _ name e he⟩
    rw [List.mem_map]
    exact ⟨e, List.mem_filterMap.mpr ⟨name, hn, he⟩, rfl⟩

/-- C7 witness: "cache1" has violations on the old side only, and is
reported; instantiating the equivalence at a concrete diff. -/
theorem c7_witness :
    (∃ c ∈ (diffConfigs cache1IR scenario2IR (checkInvariants cache1IR)
        []).changes, c.serviceName = "cache1") ↔
      (("cache1" ∈ cache1IR.services.map Service.name ∨
        "cache1" ∈ scenario2IR.services.map Service.name) ∧
       (((checkInvariants cache1IR).filter
          (fun v => v.serviceName == "cache1")).length ≠ 0 ∨
        (([] : List InvariantViolation).filter
          (fun v => v.serviceName == "cache1")).length ≠ 0)) :=
  c7_change_emitted_iff cache1IR scenario2IR (checkInvariants cache1IR) [] "cache1"

/-- C8: a name whose old violation count is `N > 0` and whose new count
is zero produces the change `"N violation(s) resolved."` (and no other
message) with impact `risk_decrease`, and contributes exactly `N` to
`totalResolvedViolations` on top of the other names' contributions. -/
theorem c8_resolved_service (oldIR newIR : ConfigIR)
    (oldV newV : List InvariantViolation) (name : String) (N : Nat)
    (hmem : name ∈ oldIR.services.map Service.name ∨
      name ∈ newIR.services.map Service.name)
    (hold : (oldV.filter (fun v => v.serviceName == name)).length = N)
    (hpos : 0 < N)
    (hnew : (newV.filter (fun v => v.serviceName == name)).length = 0) :
    (∃ c ∈ (diffConfigs oldIR newIR oldV newV).changes,
        c.serviceName = name ∧
        c.messages = [toString N ++ " violation(s) resolved."] ∧
        c.riskImpact = RiskImpact.risk_decrease) ∧
    (diffConfigs oldIR newIR oldV newV).summary.totalResolvedViolations =
      N + ((((dedupNames (oldIR.services.map Service.name ++
            newIR.services.map Service.name)).erase name).filterMap
          (nameEntry (indexByService oldV) (indexByService newV))).map
            (fun e => e.2.1)).sum := by
  have h0 : 0 < (mapGetD (indexByService oldV) name).length := by
    rw [mapGetD_indexByService, hold]
    exact hpos
  have h1 : (mapGetD (indexByService newV) name).length = 0 := by
    rw [mapGetD_indexByService]
    exact hnew
  have hentry :=
    nameEntry_resolved (indexByService oldV) (indexByService newV) name h0 h1
  rw [mapGetD_indexByService, hold] at hentry
  have hnm : name ∈ dedupNames (oldIR.services.map Service.name ++
      newIR.services.map Service.name) :=
    (mem_dedupNames _ name).mpr (List.mem_append.mpr hmem)
  rw [diffConfigs_eq]
  dsimp only
  constructor
  · refine ⟨{ serviceName := name,
              messages := [toString N ++ " violation(s) resolved."],
              riskImpact := RiskImpact.risk_decrease }, ?_, rfl, rfl, rfl⟩
    rw [List.mem_map]
    refine ⟨(0, N,
      { serviceName := name,
        messages := [toString N ++ " violation(s) resolved."],
        riskImpact := RiskImpact.risk_decrease }),
      List.mem_filterMap.mpr ⟨name, hnm, hentry⟩, rfl⟩
  · have hperm : (dedupNames (oldIR.services.map Service.name ++
        newIR.services.map Service.name)).Perm
        (name :: (dedupNames (oldIR.services.map Service.name ++
          newIR.services.map Service.name)).erase name) :=
      List.perm_cons_erase hnm
    rw [((hperm.filterMap
      (nameEntry (indexByService oldV) (indexByService newV))).map
        (fun e => e.2.1)).sum_eq]
    simp only [List.filterMap_cons, hentry, List.map_cons, List.sum_cons]

/-- C8 witness (Scenario 3): "cache1" goes from 2 violations to 0. -/
theorem c8_witness :
    (∃ c ∈ (diffConfigs cache1IR cache1IR (checkInvariants cache1IR)
        []).changes,
        c.serviceName = "cache1" ∧
        c.messages = [toString 2 ++ " violation(s) resolved."] ∧
        c.riskImpact = RiskImpact.risk_decrease) ∧
    (diffConfigs cache1IR cache1IR (checkInvariants cache1IR)
        []).summary.totalResolvedViolations =
      2 + ((((dedupNames (cache1IR.services.map Service.name ++
            cache1IR.services.map Service.name)).erase "cache1").filterMap
          (nameEntry (indexByService (checkInvariants cache1IR))
            (indexByService ([] : List InvariantViolation)))).map
            (fun e => e.2.1)).sum :=
  c8_resolved_service cache1IR cache1IR (checkInvariants cache1IR) []
    "cache1" 2 (by decide) (by decide) (by decide) (by decide)

/-- C10: the emitted changes carry pairwise-distinct service names (each
name is processed once, from the deduplicated union of names), and each
change is the per-name entry computed from the two violation indexes —
whose counts aggregate every violation attributed to that name. -/
theorem c10_distinct_change_names (oldIR newIR : ConfigIR)
    (oldV newV : List InvariantViolation) :
    ((diffConfigs oldIR newIR oldV newV).changes.map
      ServiceChange.serviceName).Nodup ∧
    ∀ c ∈ (diffConfigs oldIR newIR oldV newV).changes,
      ∃ dn dr : Nat,
        nameEntry (indexByService oldV) (indexByService newV) c.serviceName =
          some (dn, dr, c) := by
  rw [diffConfigs_eq]
  dsimp only
  constructor
  · rw [List.map_map, Function.comp_def, filterMap_nameEntry_names]
    exact (dedupNames_nodup _).filter _
  · intro c hc
    rw [List.mem_map] at hc
    obtain ⟨e, he, rfl⟩ := hc
    rw [List.mem_filterMap] at he
    obtain ⟨n, hn, hsome⟩ := he
    have hname := nameEntry_serviceName _ _ n e hsome
    refine ⟨e.1, e.2.1, ?_⟩
    rw [hname]
    exact hsome

/-- C10 witness: two service entries sharing the name "dup" still yield
changes with distinct names, each determined by the aggregated per-name
entry. -/
theorem c10_witness :
    ((diffConfigs dupIR dupIR dupViolations []).changes.map
      ServiceChange.serviceName).Nodup ∧
    ∀ c ∈ (diffConfigs dupIR dupIR dupViolations []).changes,
      ∃ dn dr : Nat,
        nameEntry (indexByService dupViolations)
          (indexByService ([] : List InvariantViolation)) c.serviceName =
          some (dn, dr, c) :=
  c10_distinct_change_names dupIR dupIR dupViolations []

end SafeConfig
